import Mathlib

/-!
Formal model of the session pool manager implemented in
`src/worker/inference-engine.js` (class `ManagedSession` and class
`InferenceEngine`).

Modelling conventions:
- JavaScript object mutation becomes explicit state passing: every operation
  takes an `Engine` and returns the updated `Engine` alongside its result.
- `Date.now()` becomes an explicit `now` (or `t0`/`t1`) argument at each call
  site that reads the clock.
- The external model handle (`this.model`) and the chat session object become
  a `Provider` record of functions passed to each operation; context and chat
  session handles are opaque `Nat` values.
- A thrown JavaScript `Error` becomes `Except.error` carrying the error
  message string; `try`/`catch`/`finally` control flow is translated into the
  corresponding `match` structure, with the `finally` release duplicated onto
  every exit path on which the session variable was assigned.
- An acquired session is identified by its position in the pool list (the
  JavaScript code identifies it by object reference; the object stays at a
  fixed position for the duration of a call under the cooperative
  single-flow scheduler).
- Numeric inference parameters (temperature and so on) are uninterpreted by
  the pool logic and are modelled as `Nat`.  The wall-clock duration is kept
  in milliseconds as a `Nat` (the JavaScript stores float seconds); the
  derived `tokensPerSecond` uses `Nat` division accordingly.  No claim below
  depends on these numeric encodings.
-/

/-- Default inference parameters (`this.defaultParams` set in the
`InferenceEngine` constructor). -/
structure Params where
  contextSize : Nat
  temperature : Nat
  topP : Nat
  topK : Nat
  repeatPenalty : Nat
  maxTokens : Nat
deriving DecidableEq, Repr

/-- Per-call `options` object: a field is `some v` when the key is present.
Corresponds to the plain object spread into the defaults in
`generate`/`generateStream`. -/
structure OptParams where
  contextSize : Option Nat := none
  temperature : Option Nat := none
  topP : Option Nat := none
  topK : Option Nat := none
  repeatPenalty : Option Nat := none
  maxTokens : Option Nat := none
deriving DecidableEq, Repr

/-- The merge `{ ...this.defaultParams, ...options }`: every key present in
`options` overrides the default, field by field. -/
def mergeParams (d : Params) (o : OptParams) : Params :=
  { contextSize := o.contextSize.getD d.contextSize
  , temperature := o.temperature.getD d.temperature
  , topP := o.topP.getD d.topP
  , topK := o.topK.getD d.topK
  , repeatPenalty := o.repeatPenalty.getD d.repeatPenalty
  , maxTokens := o.maxTokens.getD d.maxTokens }

/-- The argument object passed to `managedSession.session.prompt` in both
`generate` and `generateStream`: exactly these five fields (no
`contextSize`). -/
structure PromptArgs where
  temperature : Nat
  topP : Nat
  topK : Nat
  repeatPenalty : Nat
  maxTokens : Nat
deriving DecidableEq, Repr

/-- Projection of merged parameters onto the five fields the prompt call
receives. -/
def toPromptArgs (p : Params) : PromptArgs :=
  { temperature := p.temperature, topP := p.topP, topK := p.topK
  , repeatPenalty := p.repeatPenalty, maxTokens := p.maxTokens }

/-- State of one `ManagedSession` object.  `context` and `session` hold the
opaque handles (`none` after `dispose` clears the references). -/
structure ManagedSession where
  context : Option Nat
  session : Option Nat
  id : Nat
  busy : Bool
  createdAt : Nat
  lastUsedAt : Nat
  requestCount : Nat
deriving DecidableEq, Repr

/-- The `ManagedSession` constructor. -/
def mkManagedSession (context session id now : Nat) : ManagedSession :=
  { context := some context, session := some session, id := id
  , busy := false, createdAt := now, lastUsedAt := now, requestCount := 0 }

/-- `ManagedSession.markBusy`. -/
def markBusy (now : Nat) (s : ManagedSession) : ManagedSession :=
  { s with busy := true, lastUsedAt := now }

/-- `ManagedSession.markAvailable`. -/
def markAvailable (now : Nat) (s : ManagedSession) : ManagedSession :=
  { s with busy := false, lastUsedAt := now, requestCount := s.requestCount + 1 }

/-- `ManagedSession.getIdleTime`. -/
def getIdleTime (now : Nat) (s : ManagedSession) : Nat :=
  now - s.lastUsedAt

/-- `ManagedSession.dispose`: clears the two handle references. -/
def dispose (s : ManagedSession) : ManagedSession :=
  { s with session := none, context := none }

/-- External model provider capabilities.  `createContext` models
`model.createContext({contextSize})` together with
`new LlamaChatSession({contextSequence: context.getSequence()})` (the whole
fallible construction inside the `try` of `createSession`); `promptText`
models `session.prompt` in `generate`; `promptStream` models `session.prompt`
in `generateStream`, returning the list of `onToken` payloads (each an array
of tokens) delivered before completion, plus `some msg` when the call then
fails. -/
structure Provider where
  createContext : Nat → Except String Nat
  promptText : Nat → String → PromptArgs → Except String String
  promptStream : Nat → String → PromptArgs → List (List String) × Option String

/-- Equality of call outcomes is decidable, which lets concrete runs be
checked by evaluation. -/
instance {α β : Type} [DecidableEq α] [DecidableEq β] : DecidableEq (Except α β) :=
  fun a b =>
    match a, b with
    | Except.error x, Except.error y =>
      if h : x = y then isTrue (congrArg Except.error h)
      else isFalse (fun hc => h (Except.error.inj hc))
    | Except.ok x, Except.ok y =>
      if h : x = y then isTrue (congrArg Except.ok h)
      else isFalse (fun hc => h (Except.ok.inj hc))
    | Except.error _, Except.ok _ => isFalse (fun hc => Except.noConfusion hc)
    | Except.ok _, Except.error _ => isFalse (fun hc => Except.noConfusion hc)

/-- Mutable state of an `InferenceEngine` instance. -/
structure Engine where
  sessions : List ManagedSession
  maxSessions : Nat
  reuseSessions : Bool
  sessionTimeout : Nat
  sessionIdCounter : Nat
  defaultParams : Params
deriving DecidableEq, Repr

/-- In-place update of the object at position `i` (JavaScript mutation of an
array element through an object reference). -/
def modifyAt (f : ManagedSession → ManagedSession) : Nat → List ManagedSession → List ManagedSession
  | _, [] => []
  | 0, s :: rest => f s :: rest
  | n + 1, s :: rest => s :: modifyAt f n rest

/-- Position of the first session with `busy = false`, as found by
`this.sessions.find(s => !s.busy)`. -/
def findAvailable : List ManagedSession → Option Nat
  | [] => none
  | s :: rest => if s.busy then (findAvailable rest).map (· + 1) else some 0

/-- Message of the error thrown by `getAvailableSession` at full capacity. -/
def poolExhaustedMsg : String := "No available sessions. All sessions are busy."

/-- Wrapping applied by the `catch` in `createSession`. -/
def createFailWrap (m : String) : String := "Failed to create session: " ++ m

/-- Wrapping applied by the `catch` in `generate`. -/
def inferenceWrap (m : String) : String := "Inference failed: " ++ m

/-- Wrapping applied by the `catch` in `generateStream`. -/
def streamingWrap (m : String) : String := "Streaming inference failed: " ++ m

/-- `InferenceEngine.createSession`.  The id counter is incremented before
the fallible context creation (`const sessionId = ++this.sessionIdCounter`),
so a failure leaves the counter bumped but the pool untouched.  On success
the new session is marked busy, pushed, and returned (its position, which is
the old pool length, stands for the returned object reference). -/
def createSession (P : Provider) (now : Nat) (e : Engine) : Except String Nat × Engine :=
  let sessionId := e.sessionIdCounter + 1
  let e1 : Engine := { e with sessionIdCounter := sessionId }
  match P.createContext e.defaultParams.contextSize with
  | Except.error msg => (Except.error (createFailWrap msg), e1)
  | Except.ok c =>
    let ms := markBusy now (mkManagedSession c c sessionId now)
    (Except.ok e1.sessions.length, { e1 with sessions := e1.sessions ++ [ms] })

/-- `InferenceEngine.getAvailableSession`. -/
def getAvailableSession (P : Provider) (now : Nat) (e : Engine) : Except String Nat × Engine :=
  match (if e.reuseSessions then findAvailable e.sessions else none) with
  | some i => (Except.ok i, { e with sessions := modifyAt (markBusy now) i e.sessions })
  | none =>
    if e.sessions.length < e.maxSessions then
      createSession P now e
    else
      (Except.error poolExhaustedMsg, e)

/-- `InferenceEngine.releaseSession`: delegates to `markAvailable` on the
session object. -/
def releaseSession (now : Nat) (s : ManagedSession) : ManagedSession :=
  markAvailable now s

/-- Effect of `this.releaseSession(managedSession)` on the pool when the
session object sits at position `i`. -/
def releaseAt (i : Nat) (now : Nat) (e : Engine) : Engine :=
  { e with sessions := modifyAt (releaseSession now) i e.sessions }

/-- Id of the session object at position `i` (`managedSession.id`). -/
def sessionIdAt (i : Nat) (e : Engine) : Nat :=
  match e.sessions[i]? with
  | some s => s.id
  | none => 0

/-- Chat-session handle of the session object at position `i`
(`managedSession.session`). -/
def chatHandleAt (i : Nat) (e : Engine) : Nat :=
  match e.sessions[i]? with
  | some s => s.session.getD 0
  | none => 0

/-- Result object of `generate`. -/
structure GenResult where
  text : String
  tokens : Nat
  duration : Nat
  tokensPerSecond : Nat
  sessionId : Nat
deriving DecidableEq, Repr

/-- Result object of `generateStream`. -/
structure StreamResult where
  tokens : Nat
  duration : Nat
  tokensPerSecond : Nat
  sessionId : Nat
deriving DecidableEq, Repr

/-- Throughput figure (JavaScript `Math.round(tokens / duration)` over float
seconds; modelled with `Nat` division over milliseconds). -/
def tokensPerSec (tokens dur : Nat) : Nat :=
  tokens * 1000 / dur

/-- Token estimate `Math.ceil(text.length / 4)`. -/
def estimateTokens (text : String) : Nat :=
  (text.length + 3) / 4

/-- `InferenceEngine.generate`.  `t0` is the clock at entry, `t1` the clock
at the measurements and at the `finally` release.  The `catch` wraps every
error raised inside the `try`, including acquisition failures; the `finally`
releases the session exactly when the acquisition had assigned it. -/
def generate (P : Provider) (prompt : String) (opts : OptParams) (t0 t1 : Nat) (e : Engine) :
    Except String GenResult × Engine :=
  match getAvailableSession P t0 e with
  | (Except.error msg, e1) => (Except.error (inferenceWrap msg), e1)
  | (Except.ok i, e1) =>
    match P.promptText (chatHandleAt i e1) prompt
        (toPromptArgs (mergeParams e1.defaultParams opts)) with
    | Except.error msg => (Except.error (inferenceWrap msg), releaseAt i t1 e1)
    | Except.ok text =>
      (Except.ok
        { text := text
        , tokens := estimateTokens text
        , duration := t1 - t0
        , tokensPerSecond := tokensPerSec (estimateTokens text) (t1 - t0)
        , sessionId := sessionIdAt i e1 }, releaseAt i t1 e1)

/-- Empty accumulator text. -/
def emptyText : String := ""

/-- One execution of the `onToken` handler in `generateStream`: joins the
token array into a chunk, extends `totalText`, increments `totalTokens`, and
(when the caller supplied a callback) records the invocation
`onToken(chunk, totalTokens)`. -/
def streamStep (hasCb : Bool) (st : String × Nat × List (String × Nat)) (tok : List String) :
    String × Nat × List (String × Nat) :=
  let chunk := String.join tok
  (st.1 ++ chunk, st.2.1 + 1,
    if hasCb then st.2.2 ++ [(chunk, st.2.1 + 1)] else st.2.2)

/-- `InferenceEngine.generateStream`.  `hasCb` records whether the caller
passed an `onToken` callback (the code guards each invocation with
`if (onToken)`).  The second component of the result is the trace of
`onToken(chunk, cumulativeCount)` invocations. -/
def generateStream (P : Provider) (prompt : String) (hasCb : Bool) (opts : OptParams)
    (t0 t1 : Nat) (e : Engine) :
    (Except String StreamResult × List (String × Nat)) × Engine :=
  match getAvailableSession P t0 e with
  | (Except.error msg, e1) => ((Except.error (streamingWrap msg), []), e1)
  | (Except.ok i, e1) =>
    match P.promptStream (chatHandleAt i e1) prompt
        (toPromptArgs (mergeParams e1.defaultParams opts)) with
    | (chunks, some msg) =>
      ((Except.error (streamingWrap msg),
        (chunks.foldl (streamStep hasCb) (emptyText, 0, [])).2.2), releaseAt i t1 e1)
    | (chunks, none) =>
      ((Except.ok
        { tokens := (chunks.foldl (streamStep hasCb) (emptyText, 0, [])).2.1
        , duration := t1 - t0
        , tokensPerSecond :=
            tokensPerSec ((chunks.foldl (streamStep hasCb) (emptyText, 0, [])).2.1) (t1 - t0)
        , sessionId := sessionIdAt i e1 },
        (chunks.foldl (streamStep hasCb) (emptyText, 0, [])).2.2), releaseAt i t1 e1)

/-- One per-session entry of the stats snapshot. -/
structure SessionStats where
  id : Nat
  busy : Bool
  requestCount : Nat
  idleTime : Nat
deriving DecidableEq, Repr

/-- The object returned by `getStats` (the per-session array is the field
named `sessions` in the source). -/
structure Stats where
  totalSessions : Nat
  busySessions : Nat
  availableSessions : Nat
  maxSessions : Nat
  sessions : List SessionStats
deriving DecidableEq, Repr

/-- `InferenceEngine.getStats`: a function of the state only (the source
method performs no writes). -/
def getStats (now : Nat) (e : Engine) : Stats :=
  { totalSessions := e.sessions.length
  , busySessions := (e.sessions.filter (fun s => s.busy)).length
  , availableSessions := (e.sessions.filter (fun s => !s.busy)).length
  , maxSessions := e.maxSessions
  , sessions := e.sessions.map (fun s =>
      { id := s.id, busy := s.busy, requestCount := s.requestCount
      , idleTime := getIdleTime now s }) }

/-- Eviction test of one cleanup sweep: not busy, and idle strictly longer
than the timeout (`now - session.lastUsedAt > this.sessionTimeout`). -/
def evictable (now timeout : Nat) (s : ManagedSession) : Bool :=
  !s.busy && decide (timeout < now - s.lastUsedAt)

/-- Removal of the first occurrence of `x`
(`indexOf` + `splice(index, 1)`, no-op when absent). -/
def removeFirst (x : ManagedSession) : List ManagedSession → List ManagedSession
  | [] => []
  | y :: ys => if x = y then ys else y :: removeFirst x ys

/-- `InferenceEngine.cleanupIdleSessions`: first collect `toRemove` (skipping
busy sessions), then splice each collected session out of the array and
dispose it.  Returns the updated engine and the disposed evictees. -/
def cleanupIdleSessions (now : Nat) (e : Engine) : Engine × List ManagedSession :=
  let toRemove := e.sessions.filter (evictable now e.sessionTimeout)
  ({ e with sessions := toRemove.foldl (fun acc s => removeFirst s acc) e.sessions },
    toRemove.map dispose)

/-- Number of sessions with `busy = true`. -/
def busyCount (e : Engine) : Nat :=
  e.sessions.countP (fun s => s.busy)

/-- Concatenation of the joined chunks (the final `totalText`). -/
def concatChunks : List (List String) → String
  | [] => emptyText
  | c :: cs => String.join c ++ concatChunks cs

/-- Expected `onToken` invocation trace for a chunk list, starting from a
cumulative count `n`. -/
def traceFrom : Nat → List (List String) → List (String × Nat)
  | _, [] => []
  | n, c :: cs => (String.join c, n + 1) :: traceFrom (n + 1) cs

/-! ### Concrete fixtures used by witnesses and counterexamples -/

/-- Sample prompt. -/
def demoPrompt : String := "hi"

/-- Failure reason used by the failing provider. -/
def bootMsg : String := "boom"

/-- Text produced by the succeeding provider. -/
def demoText : String := "hello world"

/-- Chunk payloads produced by the succeeding streaming provider. -/
def demoChunks : List (List String) := [["he"], ["l", "lo"]]

/-- Sample default parameters (`contextSize = 7`). -/
def demoParams : Params :=
  { contextSize := 7, temperature := 1, topP := 2, topK := 3
  , repeatPenalty := 4, maxTokens := 5 }

/-- Empty per-call options object. -/
def noOpts : OptParams := {}

/-- Per-call options that attempt to override `contextSize`. -/
def opts42 : OptParams := { contextSize := some 42 }

/-- Provider whose calls all succeed; `createContext` echoes the requested
context size as the handle, making the size used for creation observable. -/
def demoProvider : Provider :=
  { createContext := fun n => Except.ok n
  , promptText := fun _ _ _ => Except.ok demoText
  , promptStream := fun _ _ _ => (demoChunks, none) }

/-- Provider that creates contexts but fails during generation. -/
def promptFailProvider : Provider :=
  { createContext := fun n => Except.ok n
  , promptText := fun _ _ _ => Except.error bootMsg
  , promptStream := fun _ _ _ => ([["he"]], some bootMsg) }

/-- Provider whose calls all fail with reason `bootMsg`. -/
def failProvider : Provider :=
  { createContext := fun _ => Except.error bootMsg
  , promptText := fun _ _ _ => Except.error bootMsg
  , promptStream := fun _ _ _ => ([], some bootMsg) }

/-- An idle pooled session. -/
def idleSession : ManagedSession :=
  { context := some 7, session := some 7, id := 1, busy := false
  , createdAt := 0, lastUsedAt := 0, requestCount := 0 }

/-- A busy pooled session. -/
def busySession : ManagedSession := { idleSession with busy := true }

/-- A second idle session, long unused. -/
def staleSession : ManagedSession := { idleSession with id := 2 }

/-- Engine with an empty pool of capacity 1. -/
def eEmpty : Engine :=
  { sessions := [], maxSessions := 1, reuseSessions := true
  , sessionTimeout := 1000, sessionIdCounter := 0, defaultParams := demoParams }

/-- Engine holding one idle session. -/
def eIdle : Engine := { eEmpty with sessions := [idleSession], sessionIdCounter := 1 }

/-- Engine at capacity with its only session busy. -/
def eFull : Engine := { eEmpty with sessions := [busySession], sessionIdCounter := 1 }

/-- Engine with one busy and one stale idle session and a short timeout. -/
def eMix : Engine :=
  { eEmpty with
      sessions := [busySession, staleSession]
      maxSessions := 2
      sessionTimeout := 10
      sessionIdCounter := 2 }

/-! ### Helper lemmas about list bookkeeping -/

theorem length_modifyAt (f : ManagedSession → ManagedSession) :
    ∀ (i : Nat) (l : List ManagedSession), (modifyAt f i l).length = l.length := by
  intro i l
  induction l generalizing i with
  | nil => simp [modifyAt]
  | cons s rest ih =>
    cases i with
    | zero => simp [modifyAt]
    | succ n => simp [modifyAt, ih n]

theorem getElem?_modifyAt_self (f : ManagedSession → ManagedSession) :
    ∀ (i : Nat) (l : List ManagedSession), (modifyAt f i l)[i]? = (l[i]?).map f := by
  intro i l
  induction l generalizing i with
  | nil => simp [modifyAt]
  | cons s rest ih =>
    cases i with
    | zero => simp [modifyAt]
    | succ n => simpa [modifyAt] using ih n

theorem getElem?_modifyAt_ne (f : ManagedSession → ManagedSession) :
    ∀ (i j : Nat) (l : List ManagedSession), j ≠ i → (modifyAt f i l)[j]? = l[j]? := by
  intro i j l
  induction l generalizing i j with
  | nil => intro _; simp [modifyAt]
  | cons s rest ih =>
    intro hne
    cases i with
    | zero =>
      cases j with
      | zero => exact absurd rfl hne
      | succ m => simp [modifyAt]
    | succ n =>
      cases j with
      | zero => simp [modifyAt]
      | succ m =>
        have : m ≠ n := by omega
        simpa [modifyAt] using ih n m this

theorem modifyAt_modifyAt (f g : ManagedSession → ManagedSession) :
    ∀ (i : Nat) (l : List ManagedSession),
      modifyAt f i (modifyAt g i l) = modifyAt (fun x => f (g x)) i l := by
  intro i l
  induction l generalizing i with
  | nil => simp [modifyAt]
  | cons s rest ih =>
    cases i with
    | zero => simp [modifyAt]
    | succ n => simp [modifyAt, ih n]

theorem modifyAt_append_length (f : ManagedSession → ManagedSession) :
    ∀ (l : List ManagedSession) (x : ManagedSession),
      modifyAt f l.length (l ++ [x]) = l ++ [f x] := by
  intro l x
  induction l with
  | nil => simp [modifyAt]
  | cons s rest ih => simp [modifyAt, ih]

theorem countP_modifyAt (p : ManagedSession → Bool) (f : ManagedSession → ManagedSession) :
    ∀ (i : Nat) (l : List ManagedSession),
      (∀ s, l[i]? = some s → p (f s) = p s) →
      (modifyAt f i l).countP p = l.countP p := by
  intro i l
  induction l generalizing i with
  | nil => intro _; simp [modifyAt]
  | cons s rest ih =>
    intro h
    cases i with
    | zero =>
      have hs : p (f s) = p s := h s (by simp)
      simp [modifyAt, List.countP_cons, hs]
    | succ n =>
      have hrest : (∀ t, rest[n]? = some t → p (f t) = p t) := by
        intro t ht
        exact h t (by simpa using ht)
      simp [modifyAt, List.countP_cons, ih n hrest]

theorem findAvailable_spec :
    ∀ (l : List ManagedSession) (i : Nat), findAvailable l = some i →
      ∃ s, l[i]? = some s ∧ s.busy = false := by
  intro l
  induction l with
  | nil => intro i h; simp [findAvailable] at h
  | cons s rest ih =>
    intro i h
    by_cases hb : s.busy
    · rw [findAvailable, if_pos hb] at h
      rcases Option.map_eq_some'.mp h with ⟨j, hj, hij⟩
      rcases ih j hj with ⟨t, ht, htb⟩
      exact ⟨t, by simpa [← hij] using ht, htb⟩
    · rw [findAvailable, if_neg hb] at h
      cases h
      exact ⟨s, by simp, by simpa using hb⟩

theorem length_filter_split {α : Type} (p : α → Bool) :
    ∀ l : List α, (l.filter p).length + (l.filter (fun s => !(p s))).length = l.length := by
  intro l
  induction l with
  | nil => rfl
  | cons x xs ih =>
    cases hx : p x with
    | true =>
      simp [List.filter_cons, hx]
      omega
    | false =>
      simp [List.filter_cons, hx]
      omega

theorem foldl_removeFirst_cons (p : ManagedSession → Bool) :
    ∀ (rl acc : List ManagedSession) (x : ManagedSession),
      (∀ s ∈ rl, p s = true) → p x = false →
      rl.foldl (fun acc s => removeFirst s acc) (x :: acc) =
        x :: rl.foldl (fun acc s => removeFirst s acc) acc := by
  intro rl
  induction rl with
  | nil => intro acc x _ _; rfl
  | cons s rest ih =>
    intro acc x hall hx
    have hs : p s = true := hall s (by simp)
    have hne : ¬(s = x) := by
      intro h
      rw [h, hx] at hs
      cases hs
    simp only [List.foldl_cons]
    rw [show removeFirst s (x :: acc) = x :: removeFirst s acc from by
      simp [removeFirst, hne]]
    exact ih (removeFirst s acc) x (fun t ht => hall t (by simp [ht])) hx

theorem foldl_removeFirst_filter (p : ManagedSession → Bool) :
    ∀ l : List ManagedSession,
      (l.filter p).foldl (fun acc s => removeFirst s acc) l =
        l.filter (fun s => !(p s)) := by
  intro l
  induction l with
  | nil => rfl
  | cons x xs ih =>
    by_cases hx : p x
    · rw [show (x :: xs).filter p = x :: xs.filter p from by simp [List.filter_cons, hx]]
      simp only [List.foldl_cons]
      rw [show removeFirst x (x :: xs) = xs from by simp [removeFirst]]
      rw [ih]
      simp [List.filter_cons, hx]
    · rw [show (x :: xs).filter p = xs.filter p from by simp [List.filter_cons, hx]]
      rw [foldl_removeFirst_cons p (xs.filter p) xs x
        (fun t ht => (List.mem_filter.mp ht).2) (by simpa using hx)]
      rw [ih]
      simp [List.filter_cons, hx]

theorem foldl_streamStep_count (b : Bool) :
    ∀ (cs : List (List String)) (t : String) (n : Nat) (acc : List (String × Nat)),
      (cs.foldl (streamStep b) (t, n, acc)).2.1 = n + cs.length := by
  intro cs
  induction cs with
  | nil => intro t n acc; rfl
  | cons c rest ih =>
    intro t n acc
    simp only [List.foldl_cons, streamStep]
    rw [ih]
    simp [Nat.add_comm, Nat.add_assoc, Nat.add_left_comm]

theorem foldl_streamStep_trace :
    ∀ (cs : List (List String)) (t : String) (n : Nat) (acc : List (String × Nat)),
      (cs.foldl (streamStep true) (t, n, acc)).2.2 = acc ++ traceFrom n cs := by
  intro cs
  induction cs with
  | nil => intro t n acc; simp [traceFrom]
  | cons c rest ih =>
    intro t n acc
    simp only [List.foldl_cons, streamStep, if_true]
    rw [ih]
    simp [traceFrom]

theorem foldl_streamStep_trace_none :
    ∀ (cs : List (List String)) (t : String) (n : Nat) (acc : List (String × Nat)),
      (cs.foldl (streamStep false) (t, n, acc)).2.2 = acc := by
  intro cs
  induction cs with
  | nil => intro t n acc; rfl
  | cons c rest ih =>
    intro t n acc
    simp only [List.foldl_cons, streamStep]
    rw [ih]
    simp

theorem traceFrom_length :
    ∀ (cs : List (List String)) (n : Nat), (traceFrom n cs).length = cs.length := by
  intro cs
  induction cs with
  | nil => intro n; rfl
  | cons c rest ih => intro n; simp [traceFrom, ih]

theorem traceFrom_getElem? :
    ∀ (cs : List (List String)) (n k : Nat),
      (traceFrom n cs)[k]? = (cs[k]?).map (fun c => (String.join c, n + k + 1)) := by
  intro cs
  induction cs with
  | nil => intro n k; simp [traceFrom]
  | cons c rest ih =>
    intro n k
    cases k with
    | zero => simp [traceFrom]
    | succ m =>
      simp only [traceFrom, List.getElem?_cons_succ]
      rw [ih (n + 1) m]
      have harith : n + 1 + m + 1 = n + (m + 1) + 1 := by omega
      rw [harith]

theorem getAvailable_error (P : Provider) (now : Nat) (e : Engine) (m : String) (e1 : Engine)
    (h : getAvailableSession P now e = (Except.error m, e1)) :
    e1.sessions = e.sessions := by
  unfold getAvailableSession at h
  split at h
  · injection h with h1 h2
    exact Except.noConfusion h1
  · split at h
    · simp only [createSession] at h
      split at h
      · injection h with h1 h2
        rw [← h2]
      · injection h with h1 h2
        exact Except.noConfusion h1
    · injection h with h1 h2
      rw [← h2]

theorem getAvailable_ok (P : Provider) (now : Nat) (e : Engine) (i : Nat) (e1 : Engine)
    (h : getAvailableSession P now e = (Except.ok i, e1)) :
    (∃ s, e.sessions[i]? = some s ∧ s.busy = false ∧
        e1.sessions = modifyAt (markBusy now) i e.sessions) ∨
    (∃ ms, ms.busy = true ∧ i = e.sessions.length ∧ e1.sessions = e.sessions ++ [ms]) := by
  unfold getAvailableSession at h
  split at h
  · rename_i j hfind
    injection h with h1 h2
    injection h1 with hji
    left
    have hre : e.reuseSessions = true := by
      cases hr : e.reuseSessions
      · rw [hr] at hfind
        simp at hfind
      · rfl
    rw [hre] at hfind
    simp only [if_pos rfl] at hfind
    subst hji
    rcases findAvailable_spec e.sessions j hfind with ⟨s, hs, hb⟩
    exact ⟨s, hs, hb, by rw [← h2]⟩
  · split at h
    · simp only [createSession] at h
      split at h
      · injection h with h1 h2
        exact Except.noConfusion h1
      · rename_i c hctx
        injection h with h1 h2
        injection h1 with hlen
        right
        refine ⟨markBusy now (mkManagedSession c c (e.sessionIdCounter + 1) now), rfl, ?_, ?_⟩
        · exact hlen.symm
        · rw [← h2]
    · injection h with h1 h2
      exact Except.noConfusion h1

theorem busyCount_release_after_acquire (P : Provider) (t0 t1 : Nat) (e e1 : Engine) (i : Nat)
    (h : getAvailableSession P t0 e = (Except.ok i, e1)) :
    busyCount (releaseAt i t1 e1) = busyCount e := by
  rcases getAvailable_ok P t0 e i e1 h with ⟨s, hs, hb, hsess⟩ | ⟨ms, hbusy, hi, hsess⟩
  · unfold busyCount releaseAt
    show (modifyAt (releaseSession t1) i e1.sessions).countP _ = _
    rw [hsess, modifyAt_modifyAt]
    apply countP_modifyAt
    intro t ht
    rw [hs] at ht
    injection ht with hts
    subst hts
    simp [releaseSession, markAvailable, markBusy, hb]
  · unfold busyCount releaseAt
    show (modifyAt (releaseSession t1) i e1.sessions).countP _ = _
    subst hi
    rw [hsess, modifyAt_append_length]
    simp [List.countP_append, List.countP_cons, releaseSession, markAvailable]

theorem generate_snd (P : Provider) (prompt : String) (opts : OptParams) (t0 t1 : Nat)
    (e : Engine) :
    (generate P prompt opts t0 t1 e).2 =
      match getAvailableSession P t0 e with
      | (Except.error _, e1) => e1
      | (Except.ok i, e1) => releaseAt i t1 e1 := by
  unfold generate
  split
  · rfl
  · split
    · rfl
    · rfl

theorem generateStream_snd (P : Provider) (prompt : String) (hasCb : Bool) (opts : OptParams)
    (t0 t1 : Nat) (e : Engine) :
    (generateStream P prompt hasCb opts t0 t1 e).2 =
      match getAvailableSession P t0 e with
      | (Except.error _, e1) => e1
      | (Except.ok i, e1) => releaseAt i t1 e1 := by
  unfold generateStream
  split
  · rfl
  · split
    · rfl
    · rfl

/-! ### Claim theorems -/

/-- Claim C1: for every `generate` or `generateStream` call, successful or
failing, the number of busy sessions immediately after the call equals the
number immediately before it; when acquisition itself fails, the engine
state produced by the failed acquisition is returned untouched, so no
release is attempted. -/
theorem busySessions_preserved (P : Provider) (prompt : String) (hasCb : Bool)
    (opts : OptParams) (t0 t1 : Nat) (e : Engine) :
    busyCount (generate P prompt opts t0 t1 e).2 = busyCount e ∧
    busyCount (generateStream P prompt hasCb opts t0 t1 e).2 = busyCount e ∧
    (∀ m e1, getAvailableSession P t0 e = (Except.error m, e1) →
      (generate P prompt opts t0 t1 e).2 = e1 ∧
      (generateStream P prompt hasCb opts t0 t1 e).2 = e1) := by
  have hg := generate_snd P prompt opts t0 t1 e
  have hs := generateStream_snd P prompt hasCb opts t0 t1 e
  rcases hga : getAvailableSession P t0 e with ⟨r, e1⟩
  rw [hga] at hg hs
  cases r with
  | error m =>
    have hsess := getAvailable_error P t0 e m e1 hga
    refine ⟨?_, ?_, ?_⟩
    · rw [hg]
      show busyCount e1 = busyCount e
      unfold busyCount
      rw [hsess]
    · rw [hs]
      show busyCount e1 = busyCount e
      unfold busyCount
      rw [hsess]
    · intro m2 e2 h2
      injection h2 with h21 h22
      exact ⟨by rw [hg]; exact h22, by rw [hs]; exact h22⟩
  | ok i =>
    refine ⟨?_, ?_, ?_⟩
    · rw [hg]
      show busyCount (releaseAt i t1 e1) = busyCount e
      exact busyCount_release_after_acquire P t0 t1 e e1 i hga
    · rw [hs]
      show busyCount (releaseAt i t1 e1) = busyCount e
      exact busyCount_release_after_acquire P t0 t1 e e1 i hga
    · intro m2 e2 h2
      injection h2 with h21 h22
      exact Except.noConfusion h21

theorem busySessions_preserved_witness :
    getAvailableSession demoProvider 0 eFull = (Except.error poolExhaustedMsg, eFull) ∧
    (generate demoProvider demoPrompt noOpts 0 5 eFull).2 = eFull := by
  refine ⟨by decide, ?_⟩
  exact ((busySessions_preserved demoProvider demoPrompt true noOpts 0 5 eFull).2.2
    poolExhaustedMsg eFull (by decide)).1

/-- Claim C2: `getAvailableSession` reuses the first idle session when the
reuse policy is on (marking it busy with `lastUsedAt` updated and returning
it); otherwise, while the pool is below capacity, it creates a fresh context
through the provider, wraps it as a new busy `ManagedSession` carrying the
next sequential id, appends it, and returns it; otherwise it fails with the
pool-exhausted error, leaving the state unchanged (no queueing, no retry). -/
theorem getAvailableSession_spec (P : Provider) (now : Nat) (e : Engine) :
    (∀ i s, e.reuseSessions = true → findAvailable e.sessions = some i →
      e.sessions[i]? = some s →
      getAvailableSession P now e =
        (Except.ok i, { e with sessions := modifyAt (markBusy now) i e.sessions }) ∧
      s.busy = false ∧
      (modifyAt (markBusy now) i e.sessions)[i]? = some (markBusy now s)) ∧
    (∀ c, (if e.reuseSessions then findAvailable e.sessions else none) = none →
      e.sessions.length < e.maxSessions →
      P.createContext e.defaultParams.contextSize = Except.ok c →
      getAvailableSession P now e =
        (Except.ok e.sessions.length,
          { e with
              sessionIdCounter := e.sessionIdCounter + 1
              sessions := e.sessions ++
                [markBusy now (mkManagedSession c c (e.sessionIdCounter + 1) now)] })) ∧
    ((if e.reuseSessions then findAvailable e.sessions else none) = none →
      ¬ e.sessions.length < e.maxSessions →
      getAvailableSession P now e = (Except.error poolExhaustedMsg, e)) ∧
    (∀ s : ManagedSession, (markBusy now s).busy = true ∧
      (markBusy now s).lastUsedAt = now ∧
      (markBusy now s).id = s.id ∧ (markBusy now s).requestCount = s.requestCount) := by
  refine ⟨?_, ?_, ?_, ?_⟩
  · intro i s hre hfind hs
    refine ⟨?_, ?_, ?_⟩
    · unfold getAvailableSession
      rw [hre, hfind]
      rfl
    · rcases findAvailable_spec e.sessions i hfind with ⟨t, ht, htb⟩
      rw [hs] at ht
      injection ht with h
      rw [h]
      exact htb
    · rw [getElem?_modifyAt_self, hs]
      rfl
  · intro c hnone hlen hctx
    unfold getAvailableSession
    rw [hnone, if_pos hlen]
    show createSession P now e = _
    simp only [createSession]
    rw [hctx]
  · intro hnone hfull
    unfold getAvailableSession
    rw [hnone, if_neg hfull]
  · intro s
    exact ⟨rfl, rfl, rfl, rfl⟩

theorem getAvailableSession_spec_witness :
    eIdle.reuseSessions = true ∧ findAvailable eIdle.sessions = some 0 ∧
    getAvailableSession demoProvider 5 eIdle =
      (Except.ok 0, { eIdle with sessions := modifyAt (markBusy 5) 0 eIdle.sessions }) ∧
    getAvailableSession demoProvider 5 eFull = (Except.error poolExhaustedMsg, eFull) := by
  refine ⟨rfl, by decide, ?_, ?_⟩
  · exact ((getAvailableSession_spec demoProvider 5 eIdle).1 0 idleSession rfl
      (by decide) (by decide)).1
  · exact (getAvailableSession_spec demoProvider 5 eFull).2.2.1 (by decide) (by decide)

/-- Claim C3 (amended): a `PoolExhaustedError` or `SessionCreationError`
raised during acquisition is not propagated unchanged — the `try` of
`generate` encloses acquisition, so its `catch` re-wraps every failure,
acquisition failures included, with the `Inference failed: ` prefix while
preserving the original reason as the message suffix; provider generation
failures are wrapped the same way; the pool-exhausted failure is surfaced
synchronously, never queued. -/
theorem generate_wraps_errors (P : Provider) (prompt : String) (opts : OptParams)
    (t0 t1 : Nat) (e : Engine) :
    (∀ m e1, getAvailableSession P t0 e = (Except.error m, e1) →
      generate P prompt opts t0 t1 e = (Except.error (inferenceWrap m), e1)) ∧
    (∀ i e1 m, getAvailableSession P t0 e = (Except.ok i, e1) →
      P.promptText (chatHandleAt i e1) prompt
          (toPromptArgs (mergeParams e1.defaultParams opts)) = Except.error m →
      generate P prompt opts t0 t1 e = (Except.error (inferenceWrap m), releaseAt i t1 e1)) := by
  constructor
  · intro m e1 hga
    unfold generate
    split
    · rename_i msg e2 heq
      rw [hga] at heq
      injection heq with hx hy
      injection hx with hm
      rw [hm, hy]
    · rename_i i e2 heq
      rw [hga] at heq
      injection heq with hx hy
      exact Except.noConfusion hx
  · intro i e1 m hga hpt
    unfold generate
    split
    · rename_i msg e2 heq
      rw [hga] at heq
      injection heq with hx hy
      exact Except.noConfusion hx
    · rename_i j e2 heq
      rw [hga] at heq
      injection heq with hx hy
      injection hx with hj
      subst hj
      subst hy
      rw [hpt]

theorem generate_wraps_errors_witness :
    generate demoProvider demoPrompt noOpts 0 5 eFull =
      (Except.error (inferenceWrap poolExhaustedMsg), eFull) ∧
    generate promptFailProvider demoPrompt noOpts 0 5 eEmpty =
      (Except.error (inferenceWrap bootMsg),
        releaseAt 0 5
          { eEmpty with
              sessionIdCounter := 1
              sessions := [markBusy 0 (mkManagedSession 7 7 1 0)] }) := by
  constructor
  · exact (generate_wraps_errors demoProvider demoPrompt noOpts 0 5 eFull).1
      poolExhaustedMsg eFull (by decide)
  · exact (generate_wraps_errors promptFailProvider demoPrompt noOpts 0 5 eEmpty).2 0
      { eEmpty with
          sessionIdCounter := 1
          sessions := [markBusy 0 (mkManagedSession 7 7 1 0)] }
      bootMsg (by decide) (by decide)

/-- Claim C3, counterexample to the claim as stated: the pool-exhausted
failure raised while acquiring is returned by `generate` with the
`Inference failed: ` wrapping prefix, not unchanged. -/
theorem generate_poolExhausted_not_unchanged :
    (getAvailableSession demoProvider 0 eFull).1 = Except.error poolExhaustedMsg ∧
    (generate demoProvider demoPrompt noOpts 0 5 eFull).1 =
      Except.error (inferenceWrap poolExhaustedMsg) ∧
    inferenceWrap poolExhaustedMsg ≠ poolExhaustedMsg := by
  refine ⟨by decide, by decide, by decide⟩

/-- Claim C5: `releaseSession` clears the busy flag, stamps `lastUsedAt`
with the release time, increments `requestCount` by exactly one, and leaves
every other session field untouched; at the pool level only the released
slot changes and every other engine field and pool entry is preserved. -/
theorem releaseSession_spec (now : Nat) (s : ManagedSession) (i : Nat) (e : Engine) :
    (releaseSession now s).busy = false ∧
    (releaseSession now s).lastUsedAt = now ∧
    (releaseSession now s).requestCount = s.requestCount + 1 ∧
    (releaseSession now s).id = s.id ∧
    (releaseSession now s).context = s.context ∧
    (releaseSession now s).session = s.session ∧
    (releaseSession now s).createdAt = s.createdAt ∧
    (releaseAt i now e).sessions[i]? = (e.sessions[i]?).map (releaseSession now) ∧
    (∀ j, j ≠ i → (releaseAt i now e).sessions[j]? = e.sessions[j]?) ∧
    (releaseAt i now e).sessions.length = e.sessions.length ∧
    (releaseAt i now e).maxSessions = e.maxSessions ∧
    (releaseAt i now e).reuseSessions = e.reuseSessions ∧
    (releaseAt i now e).sessionTimeout = e.sessionTimeout ∧
    (releaseAt i now e).sessionIdCounter = e.sessionIdCounter ∧
    (releaseAt i now e).defaultParams = e.defaultParams := by
  refine ⟨rfl, rfl, rfl, rfl, rfl, rfl, rfl, ?_, ?_, ?_, rfl, rfl, rfl, rfl, rfl⟩
  · exact getElem?_modifyAt_self (releaseSession now) i e.sessions
  · intro j hj
    exact getElem?_modifyAt_ne (releaseSession now) i j e.sessions hj
  · exact length_modifyAt (releaseSession now) i e.sessions

theorem releaseSession_spec_witness :
    (releaseSession 9 idleSession).requestCount = idleSession.requestCount + 1 ∧
    (releaseAt 0 9 eMix).sessions[1]? = eMix.sessions[1]? := by
  refine ⟨(releaseSession_spec 9 idleSession 0 eMix).2.2.1, ?_⟩
  exact (releaseSession_spec 9 idleSession 0 eMix).2.2.2.2.2.2.2.2.1 1 (by decide)

/-- Claim C9: when the provider fails to create a context, `createSession`
leaves the pool list unchanged and throws the wrapped creation error, but
the id counter was already incremented before the attempt; consequently the
skipped id is never carried by any pooled session, and the next successful
creation receives an id strictly greater than every pooled id — ids stay
strictly increasing and unique without being consecutive. -/
theorem createSession_failure_spec (P : Provider) (now : Nat) (e : Engine) (m : String)
    (hfail : P.createContext e.defaultParams.contextSize = Except.error m)
    (hids : ∀ s, s ∈ e.sessions → s.id ≤ e.sessionIdCounter) :
    createSession P now e =
      (Except.error (createFailWrap m),
        { e with sessionIdCounter := e.sessionIdCounter + 1 }) ∧
    (createSession P now e).2.sessions = e.sessions ∧
    (∀ s, s ∈ e.sessions → s.id ≠ e.sessionIdCounter + 1) ∧
    (∀ (P2 : Provider) (now2 c : Nat),
      P2.createContext e.defaultParams.contextSize = Except.ok c →
      createSession P2 now2 (createSession P now e).2 =
        (Except.ok e.sessions.length,
          { e with
              sessionIdCounter := e.sessionIdCounter + 2
              sessions := e.sessions ++
                [markBusy now2 (mkManagedSession c c (e.sessionIdCounter + 2) now2)] }) ∧
      (∀ s, s ∈ e.sessions → s.id < e.sessionIdCounter + 2)) := by
  have h1 : createSession P now e =
      (Except.error (createFailWrap m),
        { e with sessionIdCounter := e.sessionIdCounter + 1 }) := by
    simp only [createSession]
    rw [hfail]
  refine ⟨h1, by rw [h1], ?_, ?_⟩
  · intro s hsmem
    have := hids s hsmem
    omega
  · intro P2 now2 c hok
    constructor
    · rw [h1]
      show createSession P2 now2 { e with sessionIdCounter := e.sessionIdCounter + 1 } = _
      simp only [createSession]
      rw [hok]
    · intro s hsmem
      have := hids s hsmem
      omega

theorem createSession_failure_spec_witness :
    createSession failProvider 3 eIdle =
      (Except.error (createFailWrap bootMsg), { eIdle with sessionIdCounter := 2 }) ∧
    (createSession demoProvider 4 (createSession failProvider 3 eIdle).2).1 =
      Except.ok 1 := by
  have hids : ∀ s, s ∈ eIdle.sessions → s.id ≤ eIdle.sessionIdCounter := by
    intro s hs
    have hval : s = idleSession := by simpa [eIdle, eEmpty] using hs
    rw [hval]
    decide
  have h := createSession_failure_spec failProvider 3 eIdle bootMsg (by decide) hids
  refine ⟨h.1, ?_⟩
  rw [(h.2.2.2 demoProvider 4 7 (by decide)).1]
  rfl

/-- Claim C4: one sweep of `cleanupIdleSessions` removes exactly the
sessions with `busy = false` whose idle time strictly exceeds the timeout,
disposing each evictee; a busy session survives every sweep regardless of
elapsed time, and the pool shrinks by exactly the evicted count. -/
theorem cleanupIdleSessions_spec (now : Nat) (e : Engine) :
    (cleanupIdleSessions now e).1.sessions =
      e.sessions.filter (fun s => !(evictable now e.sessionTimeout s)) ∧
    (cleanupIdleSessions now e).2 =
      (e.sessions.filter (evictable now e.sessionTimeout)).map dispose ∧
    (∀ s, s ∈ e.sessions → s.busy = true →
      s ∈ (cleanupIdleSessions now e).1.sessions) ∧
    (cleanupIdleSessions now e).1.sessions.length +
      (e.sessions.filter (evictable now e.sessionTimeout)).length = e.sessions.length ∧
    (∀ s, s ∈ (cleanupIdleSessions now e).2 → s.context = none ∧ s.session = none) := by
  have hmain : (cleanupIdleSessions now e).1.sessions =
      e.sessions.filter (fun s => !(evictable now e.sessionTimeout s)) := by
    show (e.sessions.filter (evictable now e.sessionTimeout)).foldl
        (fun acc s => removeFirst s acc) e.sessions = _
    exact foldl_removeFirst_filter (evictable now e.sessionTimeout) e.sessions
  refine ⟨hmain, rfl, ?_, ?_, ?_⟩
  · intro s hmem hbusy
    rw [hmain]
    refine List.mem_filter.mpr ⟨hmem, ?_⟩
    simp [evictable, hbusy]
  · rw [hmain]
    have := length_filter_split (evictable now e.sessionTimeout) e.sessions
    omega
  · intro s hmem
    have hmem2 : s ∈ (e.sessions.filter (evictable now e.sessionTimeout)).map dispose := hmem
    rcases List.mem_map.mp hmem2 with ⟨t, htmem, hts⟩
    rw [← hts]
    exact ⟨rfl, rfl⟩

theorem cleanupIdleSessions_spec_witness :
    busySession ∈ eMix.sessions ∧ busySession.busy = true ∧
    busySession ∈ (cleanupIdleSessions 100 eMix).1.sessions ∧
    (cleanupIdleSessions 100 eMix).1.sessions = [busySession] ∧
    (cleanupIdleSessions 100 eMix).2 = [dispose staleSession] := by
  refine ⟨by decide, rfl, ?_, by decide, by decide⟩
  exact (cleanupIdleSessions_spec 100 eMix).2.2.1 busySession (by decide) rfl

/-- Claim C6: `getStats` is a pure function of the pool state (it takes the
engine and returns only a snapshot, with no updated engine); its snapshot
satisfies `totalSessions = busySessions + availableSessions` at every
state, reports the capacity as `maxSessions`, and holds one
`{id, busy, requestCount, idleTime}` entry per pooled session. -/
theorem getStats_spec (now : Nat) (e : Engine) :
    (getStats now e).totalSessions =
      (getStats now e).busySessions + (getStats now e).availableSessions ∧
    (getStats now e).maxSessions = e.maxSessions ∧
    (getStats now e).totalSessions = e.sessions.length ∧
    (getStats now e).sessions = e.sessions.map (fun s =>
      { id := s.id, busy := s.busy, requestCount := s.requestCount
      , idleTime := now - s.lastUsedAt }) ∧
    (getStats now e).sessions.length = e.sessions.length := by
  refine ⟨?_, rfl, rfl, rfl, by simp [getStats]⟩
  show e.sessions.length = (e.sessions.filter (fun s => s.busy)).length +
    (e.sessions.filter (fun s => !s.busy)).length
  have := length_filter_split (fun s : ManagedSession => s.busy) e.sessions
  omega

/-- Claim C7: on a successful streaming call the `onToken` callback is
invoked exactly once per produced fragment, the cumulative count passed with
the k-th fragment being k+1, and the returned metadata carries the total
fragment count as `tokens` together with `duration`, `tokensPerSecond` and
the session id. -/
theorem generateStream_onToken_spec (P : Provider) (prompt : String) (opts : OptParams)
    (t0 t1 : Nat) (e e1 : Engine) (i : Nat) (chunks : List (List String))
    (hga : getAvailableSession P t0 e = (Except.ok i, e1))
    (hstream : P.promptStream (chatHandleAt i e1) prompt
        (toPromptArgs (mergeParams e1.defaultParams opts)) = (chunks, none)) :
    generateStream P prompt true opts t0 t1 e =
      ((Except.ok
        { tokens := chunks.length
        , duration := t1 - t0
        , tokensPerSecond := tokensPerSec chunks.length (t1 - t0)
        , sessionId := sessionIdAt i e1 }, traceFrom 0 chunks), releaseAt i t1 e1) ∧
    (traceFrom 0 chunks).length = chunks.length ∧
    (∀ k, (traceFrom 0 chunks)[k]? =
      (chunks[k]?).map (fun c => (String.join c, k + 1))) := by
  refine ⟨?_, traceFrom_length chunks 0, ?_⟩
  · unfold generateStream
    split
    · rename_i msg e2 heq
      rw [hga] at heq
      injection heq with hx hy
      exact Except.noConfusion hx
    · rename_i j e2 heq
      rw [hga] at heq
      injection heq with hx hy
      injection hx with hj
      subst hj
      subst hy
      rw [hstream]
      split
      · rename_i chunks2 msg heq2
        injection heq2 with h21 h22
        exact Option.noConfusion h22
      · rename_i chunks2 heq2
        injection heq2 with h21 h22
        subst h21
        rw [foldl_streamStep_count true chunks emptyText 0 [],
          foldl_streamStep_trace chunks emptyText 0 []]
        simp
  · intro k
    rw [traceFrom_getElem? chunks 0 k]
    simp [Nat.zero_add]

theorem generateStream_onToken_spec_witness :
    (generateStream demoProvider demoPrompt true noOpts 0 5 eEmpty).1.2 =
      [(String.join ["he"], 1), (String.join ["l", "lo"], 2)] ∧
    (generateStream demoProvider demoPrompt true noOpts 0 5 eEmpty).1.1 =
      Except.ok
        { tokens := 2, duration := 5, tokensPerSecond := tokensPerSec 2 5
        , sessionId := 1 } := by
  have h := (generateStream_onToken_spec demoProvider demoPrompt noOpts 0 5 eEmpty
    { eEmpty with sessionIdCounter := 1, sessions := [markBusy 0 (mkManagedSession 7 7 1 0)] }
    0 demoChunks (by decide) (by decide)).1
  constructor
  · rw [h]
    rfl
  · rw [h]
    rfl

/-- Claim C10: `generateStream` with no `onToken` callback still runs the
generation to completion, still counts fragments, returns exactly the same
outcome value and final engine as the call with a callback, and simply never
invokes the callback (its invocation trace is empty). -/
theorem generateStream_noCallback (P : Provider) (prompt : String) (opts : OptParams)
    (t0 t1 : Nat) (e : Engine) :
    (generateStream P prompt false opts t0 t1 e).1.1 =
      (generateStream P prompt true opts t0 t1 e).1.1 ∧
    (generateStream P prompt false opts t0 t1 e).1.2 = [] ∧
    (generateStream P prompt false opts t0 t1 e).2 =
      (generateStream P prompt true opts t0 t1 e).2 := by
  unfold generateStream
  split
  · exact ⟨rfl, rfl, rfl⟩
  · rename_i i e1 heq
    split
    · rename_i chunks msg heq2
      refine ⟨rfl, ?_, rfl⟩
      exact foldl_streamStep_trace_none chunks emptyText 0 []
    · rename_i chunks heq2
      refine ⟨?_, ?_, rfl⟩
      · rw [foldl_streamStep_count false chunks emptyText 0 [],
          foldl_streamStep_count true chunks emptyText 0 []]
      · exact foldl_streamStep_trace_none chunks emptyText 0 []

/-- Claim C8 (amended): the per-call options overlay the pool defaults field
by field for the parameters handed to the provider generation call
(`temperature`, `topP`, `topK`, `repeatPenalty`, `maxTokens`), fields absent
from the options keeping their defaults, and the merged object even carries
an overridden `contextSize`; but the execution context is created during
acquisition from the pool default `contextSize` alone, so a per-call
`contextSize` never takes effect. -/
theorem effectiveParams_overlay (d : Params) (o : OptParams) (P : Provider)
    (prompt : String) (now t1 : Nat) (e : Engine) :
    (toPromptArgs (mergeParams d o)).temperature = o.temperature.getD d.temperature ∧
    (toPromptArgs (mergeParams d o)).topP = o.topP.getD d.topP ∧
    (toPromptArgs (mergeParams d o)).topK = o.topK.getD d.topK ∧
    (toPromptArgs (mergeParams d o)).repeatPenalty = o.repeatPenalty.getD d.repeatPenalty ∧
    (toPromptArgs (mergeParams d o)).maxTokens = o.maxTokens.getD d.maxTokens ∧
    (mergeParams d o).contextSize = o.contextSize.getD d.contextSize ∧
    (∀ c, P.createContext e.defaultParams.contextSize = Except.ok c →
      (createSession P now e).2.sessions =
        e.sessions ++ [markBusy now (mkManagedSession c c (e.sessionIdCounter + 1) now)]) ∧
    (∀ i e1 txt, getAvailableSession P now e = (Except.ok i, e1) →
      P.promptText (chatHandleAt i e1) prompt
          (toPromptArgs (mergeParams e1.defaultParams o)) = Except.ok txt →
      (generate P prompt o now t1 e).1 = Except.ok
        { text := txt
        , tokens := estimateTokens txt
        , duration := t1 - now
        , tokensPerSecond := tokensPerSec (estimateTokens txt) (t1 - now)
        , sessionId := sessionIdAt i e1 }) := by
  refine ⟨rfl, rfl, rfl, rfl, rfl, rfl, ?_, ?_⟩
  · intro c hok
    show ((createSession P now e).2).sessions = _
    simp only [createSession]
    rw [hok]
  · intro i e1 txt hga hpt
    unfold generate
    split
    · rename_i msg e2 heq
      rw [hga] at heq
      injection heq with hx hy
      exact Except.noConfusion hx
    · rename_i j e2 heq
      rw [hga] at heq
      injection heq with hx hy
      injection hx with hj
      subst hj
      subst hy
      rw [hpt]

theorem effectiveParams_overlay_witness :
    (createSession demoProvider 0 eEmpty).2.sessions =
      [markBusy 0 (mkManagedSession 7 7 1 0)] ∧
    (generate demoProvider demoPrompt noOpts 0 5 eEmpty).1 =
      Except.ok
        { text := demoText
        , tokens := estimateTokens demoText
        , duration := 5
        , tokensPerSecond := tokensPerSec (estimateTokens demoText) 5
        , sessionId := 1 } := by
  have h := effectiveParams_overlay demoParams noOpts demoProvider demoPrompt 0 5 eEmpty
  constructor
  · exact h.2.2.2.2.2.2.1 7 (by decide)
  · exact h.2.2.2.2.2.2.2 0
      { eEmpty with sessionIdCounter := 1, sessions := [markBusy 0 (mkManagedSession 7 7 1 0)] }
      demoText (by decide) (by decide)

/-- Claim C8, counterexample to the claim as stated: with a per-call
`contextSize` of 42 and a provider that echoes the requested size back as
the context handle, the session created inside `generate` carries handle 7,
the pool default — the per-call `contextSize` override never reaches
context creation, even though the merged parameter object contains it. -/
theorem contextSize_override_counterexample :
    opts42.contextSize = some 42 ∧
    (mergeParams demoParams opts42).contextSize = 42 ∧
    (generate demoProvider demoPrompt opts42 0 5 eEmpty).2.sessions.map
      (fun s => s.context) = [some 7] ∧
    demoParams.contextSize = 7 ∧
    (7 : Nat) ≠ 42 := by
  refine ⟨rfl, rfl, by decide, rfl, by decide⟩
